import Mathlib

/-!
Verification of the `futureworld_undrstnd` repository: a shallow embedding of
the flow controllers (`ForesightFlow`, `CompanyProfilesFlow`, `ScanSourcesFlow`),
the downloader tools and the CLI entry point, together with proofs about the
routing, error-handling, checkpointing and filename behaviour the design
document describes.

Python exceptions are modelled by an explicit `PyExc` value threaded through
`Except`; external effects (crew kickoffs, HTTP requests, `mimetypes` lookups,
pydantic JSON validation) are oracle parameters, while everything the
repository's own code computes is translated directly.
-/

/-- Model of a Python exception: the downloader code distinguishes
`requests.exceptions.RequestException` from every other exception class. -/
inductive PyExc where
  | requestException (msg : String)
  | otherException (msg : String)
deriving DecidableEq, Repr

/-- The message text carried by the exception (`str(e)` in the source). -/
def PyExc.msg : PyExc → String
  | .requestException m => m
  | .otherException m => m

/-- Whether a fallible operation completed without raising. -/
def exceptOk {ε α : Type} : Except ε α → Bool
  | .ok _ => true
  | .error _ => false

-- --------------- Downloader tools --------------- --

/-- The characters both downloader tools strip from filenames:
the Python literal `'<>:"/\\|?*'`. -/
def invalidChars : List Char := ['<', '>', ':', '"', '/', '\\', '|', '?', '*']

/-- One pass of `filename.replace(char, '_')` for every char in `invalidChars`;
since each replacement targets a single distinct character, the sequential
replaces amount to this pointwise map. -/
def replaceInvalid (c : Char) : Char := if c ∈ invalidChars then '_' else c

/-- `os.path.basename`: the part of the path after the last `'/'`. -/
def pyBasename (s : List Char) : List Char :=
  (s.reverse.takeWhile (fun c => c ≠ '/')).reverse

/-- `not filename or not filename.strip()`: true iff every character is
whitespace (covering the empty string). -/
def pyStripEmpty (s : List Char) : Bool := s.all Char.isWhitespace

/-- The characters of the extension `".pdf"`. -/
def pdfExt : List Char := ['.', 'p', 'd', 'f']

namespace PDFDownloader

/-- `PDFDownloaderTool._sanitize_filename`: basename of the URL, `"downloaded.pdf"`
when empty/whitespace, `".pdf"` appended unless the lowercased name already ends
with it, then invalid characters replaced by `'_'`. -/
def sanitize_filename (url : List Char) : List Char :=
  let filename := pyBasename url
  let filename :=
    if pyStripEmpty filename then "downloaded.pdf".data
    else if pdfExt.isSuffixOf (filename.map Char.toLower) then filename
    else filename ++ pdfExt
  filename.map replaceInvalid

/-- `PDFDownloaderTool._run`. `check` is the outcome of `_is_likely_pdf_url`
(which returns a `(is_valid, message)` pair, or raises out of its own scope);
`download` is the outcome of the GET / `raise_for_status` / file-write block.
The surrounding `try/except` turns every exception into a sentinel string. -/
def run (url : String) (check : Except PyExc (Bool × String))
    (download : Except PyExc Unit) : String :=
  let handler : PyExc → String := fun e =>
    match e with
    | .requestException m => "Error downloading PDF from " ++ url ++ ": " ++ m
    | .otherException m => "Unexpected error downloading PDF: " ++ m
  match check with
  | .error e => handler e
  | .ok (false, message) => "Could not download PDF: " ++ message
  | .ok (true, _) =>
    match download with
    | .ok _ => "Successfully downloaded PDF: " ++ String.mk (sanitize_filename url.data)
    | .error e => handler e

end PDFDownloader

namespace FileDownloader

/-- `os.path.splitext(...)[1]`: the extension (with its dot) of the final path
component, where a run of leading dots does not start an extension. -/
def splitext_ext (s : List Char) : List Char :=
  let base := pyBasename s
  let lead := base.takeWhile (fun c => c = '.')
  let rest := base.drop lead.length
  if rest.contains '.' then '.' :: (rest.reverse.takeWhile (fun c => c ≠ '.')).reverse
  else []

/-- `FileDownloaderTool._get_extension_from_content_type`; `guess` is the
`mimetypes.guess_extension` oracle. -/
def extension_from_content_type (guess : String → Option String)
    (content_type url : String) : String :=
  if content_type ≠ "" then
    match guess content_type with
    | some ext => ext
    | none => String.mk (splitext_ext url.data)
  else String.mk (splitext_ext url.data)

/-- `FileDownloaderTool._sanitize_filename`: basename, `"downloaded"` fallback,
extension appended when the name has none, invalid characters replaced. -/
def sanitize_filename (guess : String → Option String)
    (url content_type : String) : List Char :=
  let filename := pyBasename url.data
  let filename := if pyStripEmpty filename then "downloaded".data else filename
  let filename :=
    if splitext_ext filename = [] then
      filename ++ (extension_from_content_type guess content_type url).data
    else filename
  filename.map replaceInvalid

/-- `FileDownloaderTool._run`. `check` is the outcome of
`_check_url_accessibility` (an `(is_valid, content_type, message)` triple). -/
def run (guess : String → Option String) (url : String)
    (check : Except PyExc (Bool × String × String))
    (download : Except PyExc Unit) : String :=
  let handler : PyExc → String := fun e =>
    match e with
    | .requestException m => "Error downloading file from " ++ url ++ ": " ++ m
    | .otherException m => "Unexpected error downloading file: " ++ m
  match check with
  | .error e => handler e
  | .ok (false, _, message) => "Could not download file: " ++ message
  | .ok (true, content_type, _) =>
    match download with
    | .ok _ =>
      "Successfully downloaded file: " ++
        String.mk (sanitize_filename guess url content_type)
    | .error e => handler e

end FileDownloader

-- --------------- Output filenames --------------- --

/-- Python `s.replace(" ", "_")`: for a single-character pattern this is the
pointwise map over the characters. -/
def pyReplaceSpaceUnderscore (s : String) : String :=
  String.mk (s.data.map (fun c => if c = ' ' then '_' else c))

-- --------------- Section research loops --------------- --

/-- One plan section as the research loops see it: `existing` is the content of
the per-section Markdown file in `outputs/sections` when that file already
exists, and `crew` is the outcome of `ResearchCrew().crew().kickoff(...).raw`
for this section. -/
structure SectionJob where
  existing : Option String
  crew : Except PyExc String

/-- Whether processing this section hits the `except` branch: the research crew
is only run (and hence can only raise) when the per-section file is absent. -/
def jobFails (j : SectionJob) : Bool :=
  j.existing.isNone &&
    (match j.crew with
     | .ok _ => false
     | .error _ => true)

namespace Foresight

/-- The section loop of `ForesightFlow.research_sections`: load the existing
file, else run the crew, append and save on success, and on exception print
and `continue` with the next section. Returns `final_content`. -/
def research_loop : List SectionJob → List String
  | [] => []
  | j :: rest =>
    match j.existing with
    | some content => content :: research_loop rest
    | none =>
      match j.crew with
      | .ok r => r :: research_loop rest
      | .error _ => research_loop rest

/-- Which sections the Foresight loop runs the research crew for (one flag per
section, in order). -/
def research_attempts : List SectionJob → List Bool
  | [] => []
  | j :: rest =>
    match j.existing with
    | some _ => false :: research_attempts rest
    | none => true :: research_attempts rest

end Foresight

namespace DD

/-- The section loop of `CompanyProfilesFlow.research_company_overview_content`:
identical to the Foresight loop except that an exception makes the step
`return final_content` immediately, abandoning the remaining sections. -/
def research_loop : List SectionJob → List String
  | [] => []
  | j :: rest =>
    match j.existing with
    | some content => content :: research_loop rest
    | none =>
      match j.crew with
      | .ok r => r :: research_loop rest
      | .error _ => []

/-- Which sections the DD loop runs the research crew for: after the first
section whose crew raises, no further section is attempted. -/
def research_attempts : List SectionJob → List Bool
  | [] => []
  | j :: rest =>
    match j.existing with
    | some _ => false :: research_attempts rest
    | none =>
      match j.crew with
      | .ok _ => true :: research_attempts rest
      | .error _ => true :: rest.map (fun _ => false)

/-- `if len(final_content) == len(plan.sections): os.remove(self.PLAN_FILE)`. -/
def removes_plan (jobs : List SectionJob) : Bool :=
  (research_loop jobs).length == jobs.length

end DD

-- --------------- Foresight flow routing and checkpoints --------------- --

namespace Foresight

/-- The `Section` pydantic model of the Foresight `plan_crew`. -/
structure Section where
  section_number : Nat
  subtitle : String
  high_level_goal : String
  why_important : String
  sources : List String
  content_outline : List String

/-- The `Plan` pydantic model: a list of sections. -/
structure Plan where
  sections : List Section

/-- The checkpoint files `develop_plan` consults: the content of
`plan_approved.json` and of `plan_for_review.json` when they exist. -/
structure Files where
  plan_approved : Option String
  plan_for_review : Option String

/-- What `develop_plan` returns: a parsed `Plan`, or one of the two strings. -/
inductive DevelopResult where
  | plan (p : Plan)
  | awaiting_review
  | create_new_plan

/-- The three routes `handle_plan_flow` can emit. -/
inductive Route where
  | plan_approved
  | awaiting_review
  | create_new_plan
deriving DecidableEq

/-- `ForesightFlow.develop_plan`: read and validate `plan_approved.json` when it
exists (`Plan.model_validate_json` is the `parse` oracle and may raise), else
route on the existence of `plan_for_review.json`. -/
def develop_plan (parse : String → Except String Plan) (fs : Files) :
    Except String DevelopResult :=
  match fs.plan_approved with
  | some content => (parse content).map DevelopResult.plan
  | none =>
    match fs.plan_for_review with
    | some _ => .ok .awaiting_review
    | none => .ok .create_new_plan

/-- `ForesightFlow.handle_plan_flow`: route on the type of the start result
(`None` on anything unexpected). -/
def handle_plan_flow : DevelopResult → Option Route
  | .plan _ => some .plan_approved
  | .awaiting_review => some .awaiting_review
  | .create_new_plan => some .create_new_plan

/-- Which route's listener kicks off the planning crew: only
`create_new_plan` does; `plan_approved` resumes research directly. -/
def route_runs_plan_crew : Route → Bool
  | .create_new_plan => true
  | _ => false

end Foresight

/-- The plan checkpoint files the flows persist. -/
inductive CheckpointFile where
  | plan_approved
  | plan_for_review
  | dd_saved_plan
deriving DecidableEq

/-- A file operation on a plan checkpoint file. -/
inductive FileEvent where
  | read (f : CheckpointFile)
  | write (f : CheckpointFile)
  | remove (f : CheckpointFile)
deriving DecidableEq

/-- Number of reads of checkpoint file `f` in a trace. -/
def readCount (t : List FileEvent) (f : CheckpointFile) : Nat :=
  t.count (FileEvent.read f)

namespace Foresight

/-- The plan-checkpoint operations of one `kickoff()` execution of
`ForesightFlow`: with an approved plan present, `develop_plan` reads and
parses it, routes to `plan_approved`, and `research_sections` reads it a
second time; with only a review plan present the flow pauses at
`wait_for_approval` touching nothing; otherwise `create_new_plan` runs the
planning crew (`plan_crew`, which may raise uncaught) and writes
`plan_for_review.json`, then pauses. -/
def kickoff_trace (parse : String → Except String Plan)
    (plan_crew : Except PyExc Unit) (fs : Files) : List FileEvent :=
  match fs.plan_approved with
  | some c =>
    match parse c with
    | .ok _ => [.read .plan_approved, .read .plan_approved]
    | .error _ => [.read .plan_approved]
  | none =>
    match fs.plan_for_review with
    | some _ => []
    | none =>
      match plan_crew with
      | .ok _ => [.write .plan_for_review]
      | .error _ => []

end Foresight

namespace DD

/-- The plan-checkpoint operations of one `kickoff()` execution of
`CompanyProfilesFlow`: `develop_content_plan` only tests existence;
`handle_plan` reads `saved_plan.json` when it exists and otherwise runs the
plan crew (which may raise uncaught) and writes it; the research step removes
it exactly when every section produced content. -/
def kickoff_trace (plan_crew : Except PyExc Unit) (plan_file : Option String)
    (jobs : List SectionJob) : List FileEvent :=
  match plan_file with
  | some _ =>
    .read .dd_saved_plan ::
      (if removes_plan jobs then [.remove .dd_saved_plan] else [])
  | none =>
    match plan_crew with
    | .error _ => []
    | .ok _ =>
      .write .dd_saved_plan ::
        (if removes_plan jobs then [.remove .dd_saved_plan] else [])

end DD

-- --------------- ScanSourcesFlow steps --------------- --

namespace ScanSources

/-- The route strings the `ScanSourcesFlow` steps return. -/
inductive ScanRoute where
  | requirements
  | research
  | review
  | packaging
  | complete
  | error
  | success
deriving DecidableEq

/-- `ScanSourcesState`: the flow state fields the steps touch (crew outputs are
abstracted to strings / lists of strings). -/
structure ScanState where
  error_message : Option String
  research_plan : Option String
  validated_plan : Option String
  web_findings : List String
  document_findings : List String
  synthesized_forces : List String
  final_forces : List String
  markdown_report : Option String

/-- One research item inside `scan_sources`: the outcomes of the web-scan and
document-scan crew kickoffs for that item (`some findings` when the crew
result carries the findings key, `none` otherwise, `error` when it raises). -/
structure ScanItemJob where
  web : Except PyExc (Option (List String))
  doc : Except PyExc (Option (List String))

/-- The body of the per-item `try` in `scan_sources`: run the web crew, extend
the web findings, then run the document crew; an exception at either point is
caught by the item's handler, which keeps whatever was already extended and
moves to the next item. -/
def scan_item_step (j : ScanItemJob) : List String × List String :=
  match j.web with
  | .error _ => ([], [])
  | .ok wopt =>
    let w := wopt.getD []
    match j.doc with
    | .error _ => (w, [])
    | .ok dopt => (w, dopt.getD [])

/-- The `for index, item in enumerate(research_items)` loop of `scan_sources`:
per-item exceptions are printed and the loop continues. -/
def scan_items_loop : List ScanItemJob → List String × List String
  | [] => ([], [])
  | j :: rest =>
    let wd := scan_item_step j
    let rec' := scan_items_loop rest
    (wd.1 ++ rec'.1, wd.2 ++ rec'.2)

/-- Which research items the `scan_sources` loop processes: every item is
reached, whatever happened to the previous ones. -/
def scan_attempts : List ScanItemJob → List Bool
  | [] => []
  | _ :: rest => true :: scan_attempts rest

/-- `ScanSourcesFlow.prepare_research_plan`: run the requirements crew, store
the plan, return "requirements"; on exception set `error_message` and return
"error". -/
def prepare_research_plan (s : ScanState) (crew : Except PyExc String) :
    ScanState × ScanRoute :=
  match crew with
  | .ok v => ({ s with research_plan := some v }, .requirements)
  | .error e =>
    ({ s with error_message := some ("Error preparing research plan: " ++ e.msg) },
      .error)

/-- `ScanSourcesFlow.review_research_plan`: run the requirements crew on the
plan, store the validated plan, return "research"; on exception set
`error_message` and return "error". -/
def review_research_plan (s : ScanState) (crew : Except PyExc String) :
    ScanState × ScanRoute :=
  match crew with
  | .ok v => ({ s with validated_plan := some v }, .research)
  | .error e =>
    ({ s with error_message := some ("Error reviewing research plan: " ++ e.msg) },
      .error)

/-- `ScanSourcesFlow.scan_sources`: fail fast without a validated plan;
`plan_items` is the outcome of `ResearchPlan.from_crew_output` (its research
items, one `ScanItemJob` per item; raising lands in the outer handler); then
the per-item loop, the synthesis crew and the review crew, whose exceptions are
only printed — the step still returns "success" and `error_message` is not
touched on those paths. -/
def scan_sources_step (s : ScanState) (plan_items : Except PyExc (List ScanItemJob))
    (synthesis : Except PyExc (Option (List String)))
    (review : Except PyExc (Option (List String))) : ScanState × ScanRoute :=
  match s.validated_plan with
  | none => ({ s with error_message := some "No validated research plan found." }, .error)
  | some _ =>
    match plan_items with
    | .error e =>
      ({ s with error_message := some ("Error processing validated plan: " ++ e.msg) },
        .error)
    | .ok items =>
      if items.isEmpty then
        ({ s with error_message := some "No research items found in the validated plan." },
          .error)
      else
        let wd := scan_items_loop items
        let s1 := { s with web_findings := wd.1, document_findings := wd.2 }
        let s2 :=
          match synthesis with
          | .error _ => s1
          | .ok sopt =>
            let s3 :=
              match sopt with
              | some forces => { s1 with synthesized_forces := forces }
              | none => s1
            match review with
            | .error _ => s3
            | .ok ropt =>
              match ropt with
              | some forces => { s3 with final_forces := forces }
              | none => { s3 with final_forces := s3.synthesized_forces }
        (s2, .success)

/-- `ScanSourcesFlow.synthesize_findings`: store the synthesized forces and
return "review"; on exception set `error_message` and return "error". -/
def synthesize_findings (s : ScanState) (crew : Except PyExc (List String)) :
    ScanState × ScanRoute :=
  match crew with
  | .ok forces => ({ s with synthesized_forces := forces }, .review)
  | .error e =>
    ({ s with error_message := some ("Error synthesizing findings: " ++ e.msg) },
      .error)

/-- `ScanSourcesFlow.review_findings`: store the final forces and return
"packaging"; on exception set `error_message`, fall back to the synthesized
forces, and still return "packaging". -/
def review_findings (s : ScanState) (crew : Except PyExc (List String)) :
    ScanState × ScanRoute :=
  match crew with
  | .ok forces => ({ s with final_forces := forces }, .packaging)
  | .error e =>
    ({ s with error_message := some ("Error reviewing findings: " ++ e.msg)
            , final_forces := s.synthesized_forces }, .packaging)

/-- `ScanSourcesFlow.generate_outputs`: store the report and return "complete";
the nested `try` around the report file write only prints on failure, so the
write outcome affects neither the state nor the route; on a crew exception set
`error_message` and return "error". -/
def generate_outputs (s : ScanState) (crew : Except PyExc String)
    (_file_write : Except PyExc Unit) : ScanState × ScanRoute :=
  match crew with
  | .ok report => ({ s with markdown_report := some report }, .complete)
  | .error e =>
    ({ s with error_message := some ("Error generating outputs: " ++ e.msg) },
      .error)

end ScanSources

namespace ScanSources

/-- The scan_sources report filename:
`f"market_forces_report_{timestamp}.md"` (in `generate_outputs` and `main`). -/
def report_file (timestamp : String) : String :=
  "market_forces_report_" ++ timestamp ++ ".md"

/-- The scan_sources table filename in `main`:
`f"market_forces_table_{timestamp}.md"`. -/
def table_file (timestamp : String) : String :=
  "market_forces_table_" ++ timestamp ++ ".md"

end ScanSources

namespace Foresight

/-- `ForesightFlow.create_new_plan`: `f"plan_{timestamp}.md"`. -/
def plan_md_file (timestamp : String) : String := "plan_" ++ timestamp ++ ".md"

/-- `ForesightFlow.research_sections`:
`f"{section_number}_{subtitle.replace(' ', '_')}.md"`. -/
def section_file (section_number : Nat) (subtitle : String) : String :=
  toString section_number ++ "_" ++ pyReplaceSpaceUnderscore subtitle ++ ".md"

/-- `ForesightFlow.save_to_markdown`: `f"Foresight_{sector}.md".replace(" ", "_")`. -/
def report_file (sector : String) : String :=
  pyReplaceSpaceUnderscore ("Foresight_" ++ sector ++ ".md")

end Foresight

namespace DD

/-- `CompanyProfilesFlow.research_company_overview_content`:
`f"{section.subtitle.replace(' ', '_')}.md"`. -/
def section_file (subtitle : String) : String :=
  pyReplaceSpaceUnderscore subtitle ++ ".md"

/-- `CompanyProfilesFlow.save_to_markdown`:
`f"{company_short}_{topic}.md".replace(" ", "_")`. -/
def report_file (company_short topic : String) : String :=
  pyReplaceSpaceUnderscore (company_short ++ "_" ++ topic ++ ".md")

end DD

-- --------------- scan_sources CLI entry point --------------- --

/-- The optional CLI flags of `scan_sources` `main()`: `--industry`, `--market`,
`--time-horizon`; `none` when the flag is absent. -/
structure CliArgs where
  industry : Option String
  market : Option String
  time_horizon : Option String

/-- `SourceConfig` from `utilities/models.py` (reduced to the `custom`
dictionary, the only field `main()` sets). -/
structure SourceConfig where
  custom : List (String × List String)

/-- `MarketForceInput` from `utilities/models.py`. -/
structure MarketForceInput where
  target_market : String
  target_industry : String
  keywords : List String
  time_horizon : String
  sources_config : SourceConfig
  uploaded_files : List String

/-- The `FLOW_VARIABLES` dictionary of `utilities/flow_config.py`. -/
structure FlowVariables where
  target_industry : String
  target_market : String
  time_horizon : String
  max_web_sources : Nat
  max_document_sources : Nat
  output_directory : String
  specified_sources : List String

def FLOW_VARIABLES : FlowVariables :=
  { target_industry := "Coal Mining"
  , target_market := "Global"
  , time_horizon := "3-5 years"
  , max_web_sources := 10
  , max_document_sources := 0
  , output_directory := "outputs/coal_mining_scan"
  , specified_sources :=
      [ "World Coal Association", "International Energy Agency", "S&P Global"
      , "Mining Technology", "McKinsey & Company" ] }

/-- `if args.x: config_dict['k'] = args.x`: a flag overrides the configuration
value exactly when it is present and non-empty (Python string truthiness). -/
def cli_override (default : String) (arg : Option String) : String :=
  match arg with
  | some s => if s = "" then default else s
  | none => default

/-- `main()` of `scan_sources`: copy `FLOW_VARIABLES`, apply the truthy flag
overrides, pop `specified_sources` into the custom source category and build
the `MarketForceInput` (absent `keywords`/`uploaded_files` keys default to `[]`). -/
def scan_main_input (args : CliArgs) : MarketForceInput :=
  { target_industry := cli_override FLOW_VARIABLES.target_industry args.industry
  , target_market := cli_override FLOW_VARIABLES.target_market args.market
  , time_horizon := cli_override FLOW_VARIABLES.time_horizon args.time_horizon
  , keywords := []
  , sources_config := { custom := [("specified", FLOW_VARIABLES.specified_sources)] }
  , uploaded_files := [] }

-- ===================== Theorems ===================== --

lemma replaceInvalid_not_mem_invalid (c : Char) : replaceInvalid c ∉ invalidChars := by
  unfold replaceInvalid
  by_cases h : c ∈ invalidChars
  · rw [if_pos h]; decide
  · rw [if_neg h]; exact h

lemma not_invalid_of_toLower_mem_pdfExt {c : Char} (h : c.toLower ∈ pdfExt) :
    c ∉ invalidChars := by
  intro hc
  simp only [invalidChars, List.mem_cons, List.not_mem_nil, or_false] at hc
  rcases hc with h1 | h1 | h1 | h1 | h1 | h1 | h1 | h1 | h1 <;> subst h1 <;> revert h <;> decide

lemma replaceInvalid_eq_of_toLower_mem {c : Char} (h : c.toLower ∈ pdfExt) :
    replaceInvalid c = c := by
  unfold replaceInvalid
  rw [if_neg (not_invalid_of_toLower_mem_pdfExt h)]

lemma map_replaceInvalid_of_toLower_eq_pdfExt {l : List Char}
    (h : l.map Char.toLower = pdfExt) : l.map replaceInvalid = l := by
  have hmem : ∀ c ∈ l, replaceInvalid c = c := by
    intro c hc
    exact replaceInvalid_eq_of_toLower_mem (h ▸ List.mem_map_of_mem Char.toLower hc)
  calc l.map replaceInvalid = l.map id := List.map_congr_left hmem
    _ = l := List.map_id l

lemma mem_map_replaceInvalid_not_invalid {l : List Char} :
    ∀ c ∈ l.map replaceInvalid, c ∉ invalidChars := by
  intro c hc
  rcases List.mem_map.mp hc with ⟨x, _, rfl⟩
  exact replaceInvalid_not_mem_invalid x

/-- C10 (amended): for every URL, `PDFDownloaderTool._sanitize_filename` returns a
non-empty filename that ends with ".pdf" up to letter case and contains none of
the characters `<>:"/\|?*`. -/
theorem pdf_sanitize_filename_safe (url : List Char) :
    PDFDownloader.sanitize_filename url ≠ [] ∧
    pdfExt <:+ (PDFDownloader.sanitize_filename url).map Char.toLower ∧
    ∀ c ∈ PDFDownloader.sanitize_filename url, c ∉ invalidChars := by
  unfold PDFDownloader.sanitize_filename
  by_cases hstrip : pyStripEmpty (pyBasename url)
  · simp only [hstrip, if_pos]
    exact ⟨by decide, by decide, by decide⟩
  · simp only [hstrip, Bool.false_eq_true, if_false]
    by_cases hsuf : pdfExt.isSuffixOf ((pyBasename url).map Char.toLower)
    · simp only [hsuf, if_pos]
      obtain ⟨t, ht⟩ := List.isSuffixOf_iff_suffix.mp hsuf
      obtain ⟨b₁, b₂, hb12, h1, h2⟩ := List.map_eq_append_iff.mp ht.symm
      have hrepl : b₂.map replaceInvalid = b₂ := map_replaceInvalid_of_toLower_eq_pdfExt h2
      have hb₂ne : b₂ ≠ [] := by
        intro h0
        rw [h0] at h2
        exact absurd h2.symm (by decide)
      refine ⟨?_, ?_, mem_map_replaceInvalid_not_invalid⟩
      · rw [hb12]
        simp only [List.map_append, hrepl, ne_eq, List.append_eq_nil, not_and]
        intro _
        exact hb₂ne
      · refine ⟨(b₁.map replaceInvalid).map Char.toLower, ?_⟩
        rw [hb12]
        simp only [List.map_append, hrepl, h2]
    · simp only [hsuf, Bool.false_eq_true, if_false]
      have hext : pdfExt.map replaceInvalid = pdfExt := by decide
      have hlow : pdfExt.map Char.toLower = pdfExt := by decide
      refine ⟨?_, ?_, mem_map_replaceInvalid_not_invalid⟩
      · simp only [List.map_append, hext, ne_eq, List.append_eq_nil, not_and]
        intro _
        decide
      · refine ⟨((pyBasename url).map replaceInvalid).map Char.toLower, ?_⟩
        simp only [List.map_append, hext, hlow]

/-- Witness for C10 (amended) at the URL `http://a/b.pdf`. -/
theorem pdf_sanitize_filename_safe_witness :
    'b' ∉ invalidChars ∧ PDFDownloader.sanitize_filename "http://a/b.pdf".data ≠ [] :=
  ⟨(pdf_sanitize_filename_safe "http://a/b.pdf".data).2.2 'b' (by decide),
    (pdf_sanitize_filename_safe "http://a/b.pdf".data).1⟩

/-- C10 counterexample: for the URL `http://x/REPORT.PDF` the sanitized filename
is `REPORT.PDF`, which does not end with the literal string ".pdf" as the claim
states (the code's `lower().endswith('.pdf')` check accepts it unchanged). -/
theorem pdf_sanitize_uppercase_extension :
    PDFDownloader.sanitize_filename "http://x/REPORT.PDF".data = "REPORT.PDF".data ∧
    ¬ (pdfExt <:+ "REPORT.PDF".data) := by
  exact ⟨by decide, by decide⟩

/-- C7: `FileDownloaderTool._run` and `PDFDownloaderTool._run` always return a
string, whatever the accessibility check, the download and the file write do:
the result is one of the four sentinel families ("Could not download ...",
"Error downloading ...", "Unexpected error ...", "Successfully downloaded ...");
and when the check passes and the download succeeds the result is exactly the
success message. No exception escapes `_run` (both embeddings are total
functions from the outcomes of the wrapped effects to a `String`). -/
theorem downloader_run_sentinel_strings :
    (∀ (guess : String → Option String) (url : String)
        (check : Except PyExc (Bool × String × String)) (download : Except PyExc Unit),
      (∃ m, FileDownloader.run guess url check download = "Could not download file: " ++ m) ∨
      (∃ m, FileDownloader.run guess url check download =
        "Error downloading file from " ++ url ++ ": " ++ m) ∨
      (∃ m, FileDownloader.run guess url check download =
        "Unexpected error downloading file: " ++ m) ∨
      (∃ m, FileDownloader.run guess url check download =
        "Successfully downloaded file: " ++ m)) ∧
    (∀ (url : String) (check : Except PyExc (Bool × String)) (download : Except PyExc Unit),
      (∃ m, PDFDownloader.run url check download = "Could not download PDF: " ++ m) ∨
      (∃ m, PDFDownloader.run url check download =
        "Error downloading PDF from " ++ url ++ ": " ++ m) ∨
      (∃ m, PDFDownloader.run url check download =
        "Unexpected error downloading PDF: " ++ m) ∨
      (∃ m, PDFDownloader.run url check download =
        "Successfully downloaded PDF: " ++ m)) ∧
    (∀ (guess : String → Option String) (url ct msg : String),
      FileDownloader.run guess url (.ok (true, ct, msg)) (.ok ()) =
        "Successfully downloaded file: " ++
          String.mk (FileDownloader.sanitize_filename guess url ct)) ∧
    (∀ (url msg : String),
      PDFDownloader.run url (.ok (true, msg)) (.ok ()) =
        "Successfully downloaded PDF: " ++
          String.mk (PDFDownloader.sanitize_filename url.data)) := by
  refine ⟨?_, ?_, ?_, ?_⟩
  · intro guess url check download
    rcases check with e | ⟨b, ct, msg⟩
    · rcases e with m | m
      · exact Or.inr (Or.inl ⟨m, rfl⟩)
      · exact Or.inr (Or.inr (Or.inl ⟨m, rfl⟩))
    · cases b
      · exact Or.inl ⟨msg, rfl⟩
      · rcases download with e | u
        · rcases e with m | m
          · exact Or.inr (Or.inl ⟨m, rfl⟩)
          · exact Or.inr (Or.inr (Or.inl ⟨m, rfl⟩))
        · exact Or.inr (Or.inr (Or.inr ⟨_, rfl⟩))
  · intro url check download
    rcases check with e | ⟨b, msg⟩
    · rcases e with m | m
      · exact Or.inr (Or.inl ⟨m, rfl⟩)
      · exact Or.inr (Or.inr (Or.inl ⟨m, rfl⟩))
    · cases b
      · exact Or.inl ⟨msg, rfl⟩
      · rcases download with e | u
        · rcases e with m | m
          · exact Or.inr (Or.inl ⟨m, rfl⟩)
          · exact Or.inr (Or.inr (Or.inl ⟨m, rfl⟩))
        · exact Or.inr (Or.inr (Or.inr ⟨_, rfl⟩))
  · intro guess url ct msg
    rfl
  · intro url msg
    rfl

/-- C4 counterexample: the final Foresight report for sector "Technology" is
written as `Foresight_Technology.md`, which does not contain the run's
timestamp (taking `20250101_120000` as the run's `strftime("%Y%m%d_%H%M%S")`),
contradicting the claim that every written `.md` output file has a timestamped
name. -/
theorem foresight_report_filename_lacks_timestamp :
    Foresight.report_file "Technology" = "Foresight_Technology.md" ∧
    ¬ ("20250101_120000".data <:+: "Foresight_Technology.md".data) := by
  exact ⟨by decide, by decide⟩

/-- C4 (amended): the scan_sources report and table files and the Foresight
plan review file embed the run timestamp in their names; the per-section files
and the example flows' final reports are named from the section subtitle /
sector / company and topic only, and (witnessed at representative inputs) carry
no timestamp. -/
theorem output_filename_timestamping :
    (∀ ts, ∃ a b, ScanSources.report_file ts = a ++ (ts ++ b)) ∧
    (∀ ts, ∃ a b, ScanSources.table_file ts = a ++ (ts ++ b)) ∧
    (∀ ts, ∃ a b, Foresight.plan_md_file ts = a ++ (ts ++ b)) ∧
    (DD.report_file "Acme Corp" "Company Profile" = "Acme_Corp_Company_Profile.md" ∧
      ¬ ("20250101_120000".data <:+: (DD.report_file "Acme Corp" "Company Profile").data)) ∧
    (Foresight.section_file 1 "Key Trends" = "1_Key_Trends.md" ∧
      ¬ ("20250101_120000".data <:+: (Foresight.section_file 1 "Key Trends").data)) ∧
    (DD.section_file "Overview" = "Overview.md" ∧
      ¬ ("20250101_120000".data <:+: (DD.section_file "Overview").data)) := by
  refine ⟨?_, ?_, ?_, ⟨by decide, by decide⟩, ⟨by decide, by decide⟩, ⟨by decide, by decide⟩⟩
  · intro ts
    exact ⟨"market_forces_report_", ".md", by simp [ScanSources.report_file, String.append_assoc]⟩
  · intro ts
    exact ⟨"market_forces_table_", ".md", by simp [ScanSources.table_file, String.append_assoc]⟩
  · intro ts
    exact ⟨"plan_", ".md", by simp [Foresight.plan_md_file, String.append_assoc]⟩

/-- C6 counterexample: invoking `main` with `--industry ""` (the flag provided,
with an empty value) leaves `target_industry` at the configuration value
`"Coal Mining"` instead of the provided flag value `""`, because the code tests
the flag's Python truthiness rather than its presence. -/
theorem empty_industry_flag_ignored :
    (scan_main_input ⟨some "", none, none⟩).target_industry = "Coal Mining" ∧
    ¬ (scan_main_input ⟨some "", none, none⟩).target_industry = "" := by
  exact ⟨rfl, by decide⟩

/-- C6 (amended): each of `target_industry`, `target_market`, `time_horizon`
equals the flag value when the flag is provided with a non-empty value and the
`FLOW_VARIABLES` value when the flag is absent or empty; the remaining
`MarketForceInput` fields are independent of the flags. -/
theorem scan_main_input_overrides (args : CliArgs) :
    (∀ s, args.industry = some s → s ≠ "" →
      (scan_main_input args).target_industry = s) ∧
    (args.industry = none ∨ args.industry = some "" →
      (scan_main_input args).target_industry = FLOW_VARIABLES.target_industry) ∧
    (∀ s, args.market = some s → s ≠ "" →
      (scan_main_input args).target_market = s) ∧
    (args.market = none ∨ args.market = some "" →
      (scan_main_input args).target_market = FLOW_VARIABLES.target_market) ∧
    (∀ s, args.time_horizon = some s → s ≠ "" →
      (scan_main_input args).time_horizon = s) ∧
    (args.time_horizon = none ∨ args.time_horizon = some "" →
      (scan_main_input args).time_horizon = FLOW_VARIABLES.time_horizon) ∧
    (scan_main_input args).keywords = [] ∧
    (scan_main_input args).uploaded_files = [] ∧
    (scan_main_input args).sources_config.custom =
      [("specified", FLOW_VARIABLES.specified_sources)] := by
  refine ⟨?_, ?_, ?_, ?_, ?_, ?_, rfl, rfl, rfl⟩ <;>
    first
    | (intro s hs hne; simp [scan_main_input, cli_override, hs, hne])
    | (rintro (h | h) <;> simp [scan_main_input, cli_override, h])

/-- Witness for C6 (amended) at `--industry Steel` with an empty
`--time-horizon` and no `--market`. -/
theorem scan_main_input_overrides_witness :
    (scan_main_input ⟨some "Steel", none, some ""⟩).target_industry = "Steel" ∧
    (scan_main_input ⟨some "Steel", none, some ""⟩).target_market =
      FLOW_VARIABLES.target_market ∧
    (scan_main_input ⟨some "Steel", none, some ""⟩).time_horizon =
      FLOW_VARIABLES.time_horizon :=
  have h := scan_main_input_overrides ⟨some "Steel", none, some ""⟩
  ⟨h.1 "Steel" rfl (by decide), h.2.2.2.1 (Or.inl rfl), h.2.2.2.2.2.1 (Or.inr rfl)⟩

/-- C1: whenever `plan_approved.json` parses when present, the start step
`develop_plan` succeeds, and `handle_plan_flow` emits exactly one route:
`"plan_approved"` when the approved plan file exists (with the parsed `Plan`
carried through, and the planning crew's listener not triggered),
`"awaiting_review"` when only `plan_for_review.json` exists, and
`"create_new_plan"` when neither exists. -/
theorem foresight_develop_plan_routing (parse : String → Except String Foresight.Plan)
    (fs : Foresight.Files)
    (hparse : ∀ c, fs.plan_approved = some c → exceptOk (parse c) = true) :
    ∃ r route, Foresight.develop_plan parse fs = .ok r ∧
      Foresight.handle_plan_flow r = some route ∧
      route = (match fs.plan_approved, fs.plan_for_review with
               | some _, _ => Foresight.Route.plan_approved
               | none, some _ => Foresight.Route.awaiting_review
               | none, none => Foresight.Route.create_new_plan) ∧
      (fs.plan_approved.isSome = true → Foresight.route_runs_plan_crew route = false) := by
  obtain ⟨pa, pr⟩ := fs
  cases pa with
  | some c =>
    have h := hparse c rfl
    cases hp : parse c with
    | ok p =>
      exact ⟨.plan p, .plan_approved,
        by simp [Foresight.develop_plan, hp, Except.map], rfl, rfl, fun _ => rfl⟩
    | error e =>
      rw [hp] at h
      exact absurd h (by simp [exceptOk])
  | none =>
    cases pr with
    | some c =>
      exact ⟨.awaiting_review, .awaiting_review, rfl, rfl, rfl, fun h => nomatch h⟩
    | none =>
      exact ⟨.create_new_plan, .create_new_plan, rfl, rfl, rfl, fun h => nomatch h⟩

/-- Witness for C1 on a filesystem holding a parsable approved plan. -/
theorem foresight_develop_plan_routing_witness :
    ∃ r route,
      Foresight.develop_plan (fun _ => .ok { sections := [] }) ⟨some "plan", none⟩ = .ok r ∧
      Foresight.handle_plan_flow r = some route ∧
      route = Foresight.Route.plan_approved ∧
      ((some "plan").isSome = true → Foresight.route_runs_plan_crew route = false) :=
  foresight_develop_plan_routing (fun _ => .ok { sections := [] }) ⟨some "plan", none⟩
    (fun _ _ => rfl)

/-- C5 counterexample: on a resumed Foresight execution (approved plan present
and parsable), the checkpoint trace reads `plan_approved.json` twice — once in
`develop_plan` and once more in `research_sections` — contradicting the claim
that every written checkpoint file is read back at most once. -/
theorem approved_plan_read_twice_on_resume :
    readCount
        (Foresight.kickoff_trace (fun _ => .ok { sections := [] }) (.ok ())
          ⟨some "plan", none⟩)
        .plan_approved = 2 ∧
    ¬ (readCount
        (Foresight.kickoff_trace (fun _ => .ok { sections := [] }) (.ok ())
          ⟨some "plan", none⟩)
        .plan_approved ≤ 1) := by
  exact ⟨rfl, by decide⟩

/-- C5 (amended): each plan checkpoint file is read at most twice per flow
execution: the Foresight approved-plan file is read exactly twice on a resumed
execution (once by `develop_plan`, once by `research_sections`), the review
file is written but never read during a run, and the DD `saved_plan.json` is
read at most once. -/
theorem checkpoint_read_counts :
    (∀ (parse : String → Except String Foresight.Plan) (crew : Except PyExc Unit)
        (fs : Foresight.Files),
      readCount (Foresight.kickoff_trace parse crew fs) .plan_approved ≤ 2 ∧
      readCount (Foresight.kickoff_trace parse crew fs) .plan_for_review = 0) ∧
    (∀ (parse : String → Except String Foresight.Plan) (crew : Except PyExc Unit)
        (fs : Foresight.Files) (c : String) (p : Foresight.Plan),
      fs.plan_approved = some c → parse c = .ok p →
      readCount (Foresight.kickoff_trace parse crew fs) .plan_approved = 2) ∧
    (∀ (crew : Except PyExc Unit) (plan_file : Option String) (jobs : List SectionJob),
      readCount (DD.kickoff_trace crew plan_file jobs) .dd_saved_plan ≤ 1) := by
  refine ⟨?_, ?_, ?_⟩
  · intro parse crew fs
    obtain ⟨pa, pr⟩ := fs
    cases pa with
    | some c =>
      cases hp : parse c <;>
        simp [Foresight.kickoff_trace, hp, readCount, List.count_cons]
    | none =>
      cases pr with
      | some _ => simp [Foresight.kickoff_trace, readCount]
      | none =>
        cases crew <;> simp [Foresight.kickoff_trace, readCount, List.count_cons]
  · intro parse crew fs c p hc hp
    obtain ⟨pa, pr⟩ := fs
    cases hc
    simp [Foresight.kickoff_trace, hp, readCount, List.count_cons]
  · intro crew plan_file jobs
    cases plan_file with
    | some _ =>
      by_cases hr : DD.removes_plan jobs <;>
        simp [DD.kickoff_trace, hr, readCount, List.count_cons]
    | none =>
      cases crew with
      | error e => simp [DD.kickoff_trace, readCount]
      | ok u =>
        by_cases hr : DD.removes_plan jobs <;>
          simp [DD.kickoff_trace, hr, readCount, List.count_cons]

/-- Witness for C5 (amended): the exactly-two-reads clause at a concrete
resumed filesystem. -/
theorem checkpoint_read_counts_witness :
    readCount
        (Foresight.kickoff_trace (fun _ => .ok { sections := [] }) (.ok ())
          ⟨some "plan", none⟩)
        .plan_approved = 2 :=
  checkpoint_read_counts.2.1 (fun _ => .ok { sections := [] }) (.ok ())
    ⟨some "plan", none⟩ "plan" { sections := [] } rfl rfl

lemma foresight_attempts_eq (jobs : List SectionJob) :
    Foresight.research_attempts jobs = jobs.map (fun j => j.existing.isNone) := by
  induction jobs with
  | nil => rfl
  | cons j rest ih =>
    cases hje : j.existing <;> simp [Foresight.research_attempts, hje, ih]

lemma scan_attempts_eq (items : List ScanSources.ScanItemJob) :
    ScanSources.scan_attempts items = items.map (fun _ => true) := by
  induction items with
  | nil => rfl
  | cons j rest ih => simp [ScanSources.scan_attempts, ih]

lemma dd_attempts_no_fail (jobs : List SectionJob)
    (h : ∀ k ∈ jobs, jobFails k = false) :
    DD.research_attempts jobs = jobs.map (fun j => j.existing.isNone) := by
  induction jobs with
  | nil => rfl
  | cons j rest ih =>
    have hj := h j (List.mem_cons_self j rest)
    have hrest : ∀ k ∈ rest, jobFails k = false :=
      fun k hk => h k (List.mem_cons_of_mem j hk)
    cases hje : j.existing with
    | some c => simp [DD.research_attempts, hje, ih hrest]
    | none =>
      cases hjc : j.crew with
      | ok r => simp [DD.research_attempts, hje, hjc, ih hrest]
      | error e => simp [jobFails, hje, hjc] at hj

lemma dd_attempts_first_fail (jobs₁ : List SectionJob) (j : SectionJob)
    (jobs₂ : List SectionJob) (h1 : ∀ k ∈ jobs₁, jobFails k = false)
    (h2 : jobFails j = true) :
    DD.research_attempts (jobs₁ ++ j :: jobs₂) =
      jobs₁.map (fun k => k.existing.isNone) ++ true :: jobs₂.map (fun _ => false) := by
  induction jobs₁ with
  | nil =>
    simp only [List.nil_append, List.map_nil]
    cases hje : j.existing with
    | some c => simp [jobFails, hje] at h2
    | none =>
      cases hjc : j.crew with
      | ok r => simp [jobFails, hje, hjc] at h2
      | error e => simp [DD.research_attempts, hje, hjc]
  | cons k rest ih =>
    have hk := h1 k (List.mem_cons_self k rest)
    have hrest : ∀ x ∈ rest, jobFails x = false :=
      fun x hx => h1 x (List.mem_cons_of_mem k hx)
    cases hke : k.existing with
    | some c => simp [DD.research_attempts, hke, ih hrest]
    | none =>
      cases hkc : k.crew with
      | ok r => simp [DD.research_attempts, hke, hkc, ih hrest]
      | error e => simp [jobFails, hke, hkc] at hk

/-- C3 counterexample: in the DD_example loop a failure on the first section
prevents the second (unprocessed, crew-ready) section from being attempted —
only the first section's crew runs, and no content is collected — contradicting
the claim that "a failure on item k never prevents items k+1..n from being
attempted". -/
theorem dd_loop_stops_after_failed_section :
    DD.research_attempts
        [{ existing := none, crew := .error (.otherException "boom") },
         { existing := none, crew := .ok "second section content" }] = [true, false] ∧
    DD.research_loop
        [{ existing := none, crew := .error (.otherException "boom") },
         { existing := none, crew := .ok "second section content" }] = [] := by
  exact ⟨rfl, rfl⟩

/-- C3 (amended): no loop retries an item — each item's crew runs at most once.
In `ScanSourcesFlow.scan_sources` every item is reached whatever happened
before; in `ForesightFlow.research_sections` every section without an existing
file is attempted regardless of earlier failures; in the DD_example flow this
holds only up to the first failing section, after which the loop returns early
and no later section is attempted. -/
theorem research_loop_attempt_pattern :
    (∀ jobs, Foresight.research_attempts jobs =
      jobs.map (fun j => j.existing.isNone)) ∧
    (∀ items, ScanSources.scan_attempts items = items.map (fun _ => true)) ∧
    (∀ jobs, (∀ k ∈ jobs, jobFails k = false) →
      DD.research_attempts jobs = jobs.map (fun j => j.existing.isNone)) ∧
    (∀ jobs₁ j jobs₂, (∀ k ∈ jobs₁, jobFails k = false) → jobFails j = true →
      DD.research_attempts (jobs₁ ++ j :: jobs₂) =
        jobs₁.map (fun k => k.existing.isNone) ++ true :: jobs₂.map (fun _ => false)) :=
  ⟨foresight_attempts_eq, scan_attempts_eq, dd_attempts_no_fail, dd_attempts_first_fail⟩

/-- Witness for C3 (amended): a DD run whose second section fails attempts the
sections as `[false, true, false]` (first skipped via its file, second run and
failing, third abandoned). -/
theorem research_loop_attempt_pattern_witness :
    DD.research_attempts
        [{ existing := some "done", crew := .ok "x" },
         { existing := none, crew := .error (.otherException "boom") },
         { existing := none, crew := .ok "y" }] = [false, true, false] :=
  research_loop_attempt_pattern.2.2.2
    [{ existing := some "done", crew := .ok "x" }]
    { existing := none, crew := .error (.otherException "boom") }
    [{ existing := none, crew := .ok "y" }]
    (by
      intro k hk
      rw [List.mem_singleton] at hk
      subst hk
      rfl)
    rfl

lemma getD_map_false (l : List SectionJob) (i : Nat) (h : i < l.length) :
    (l.map (fun _ => false)).getD i true = false := by
  induction l generalizing i with
  | nil => simp at h
  | cons a rest ih =>
    cases i with
    | zero => rfl
    | succ n =>
      simp only [List.map_cons, List.getD_cons_succ]
      exact ih n (by simpa using h)

lemma foresight_skip (jobs : List SectionJob) (i : Nat) (h : i < jobs.length)
    (hex : ((jobs.getD i { existing := none, crew := .ok "" }).existing).isSome = true) :
    (Foresight.research_attempts jobs).getD i true = false := by
  induction jobs generalizing i with
  | nil => simp at h
  | cons j rest ih =>
    cases i with
    | zero =>
      simp only [List.getD_cons_zero] at hex
      cases hje : j.existing with
      | some c => simp [Foresight.research_attempts, hje]
      | none => rw [hje] at hex; simp at hex
    | succ n =>
      have hn : n < rest.length := by simpa using h
      simp only [List.getD_cons_succ] at hex
      have hrec := ih n hn hex
      cases hje : j.existing with
      | some c =>
        rw [show Foresight.research_attempts (j :: rest) =
            false :: Foresight.research_attempts rest from
          by simp [Foresight.research_attempts, hje]]
        rw [List.getD_cons_succ]
        exact hrec
      | none =>
        rw [show Foresight.research_attempts (j :: rest) =
            true :: Foresight.research_attempts rest from
          by simp [Foresight.research_attempts, hje]]
        rw [List.getD_cons_succ]
        exact hrec

lemma dd_skip (jobs : List SectionJob) (i : Nat) (h : i < jobs.length)
    (hex : ((jobs.getD i { existing := none, crew := .ok "" }).existing).isSome = true) :
    (DD.research_attempts jobs).getD i true = false := by
  induction jobs generalizing i with
  | nil => simp at h
  | cons j rest ih =>
    cases i with
    | zero =>
      simp only [List.getD_cons_zero] at hex
      cases hje : j.existing with
      | some c => simp [DD.research_attempts, hje]
      | none => rw [hje] at hex; simp at hex
    | succ n =>
      have hn : n < rest.length := by simpa using h
      simp only [List.getD_cons_succ] at hex
      have hrec := ih n hn hex
      cases hje : j.existing with
      | some c =>
        rw [show DD.research_attempts (j :: rest) =
            false :: DD.research_attempts rest from
          by simp [DD.research_attempts, hje]]
        rw [List.getD_cons_succ]
        exact hrec
      | none =>
        cases hjc : j.crew with
        | ok r =>
          rw [show DD.research_attempts (j :: rest) =
              true :: DD.research_attempts rest from
            by simp [DD.research_attempts, hje, hjc]]
          rw [List.getD_cons_succ]
          exact hrec
        | error e =>
          rw [show DD.research_attempts (j :: rest) =
              true :: rest.map (fun _ => false) from
            by simp [DD.research_attempts, hje, hjc]]
          rw [List.getD_cons_succ]
          exact getD_map_false rest n hn

lemma foresight_loop_mem (jobs : List SectionJob) (j : SectionJob) (c : String)
    (hmem : j ∈ jobs) (hc : j.existing = some c) :
    c ∈ Foresight.research_loop jobs := by
  induction jobs with
  | nil => simp at hmem
  | cons k rest ih =>
    rcases List.mem_cons.mp hmem with rfl | hmem'
    · rw [show Foresight.research_loop (j :: rest) = c :: Foresight.research_loop rest from
        by simp [Foresight.research_loop, hc]]
      exact List.mem_cons_self c _
    · cases hke : k.existing with
      | some ck =>
        rw [show Foresight.research_loop (k :: rest) = ck :: Foresight.research_loop rest from
          by simp [Foresight.research_loop, hke]]
        exact List.mem_cons_of_mem _ (ih hmem')
      | none =>
        cases hkc : k.crew with
        | ok r =>
          rw [show Foresight.research_loop (k :: rest) = r :: Foresight.research_loop rest from
            by simp [Foresight.research_loop, hke, hkc]]
          exact List.mem_cons_of_mem _ (ih hmem')
        | error e =>
          rw [show Foresight.research_loop (k :: rest) = Foresight.research_loop rest from
            by simp [Foresight.research_loop, hke, hkc]]
          exact ih hmem'

lemma dd_loop_mem_of_no_earlier_fail (jobs₁ : List SectionJob) (j : SectionJob)
    (jobs₂ : List SectionJob) (c : String) (h1 : ∀ k ∈ jobs₁, jobFails k = false)
    (hc : j.existing = some c) :
    c ∈ DD.research_loop (jobs₁ ++ j :: jobs₂) := by
  induction jobs₁ with
  | nil =>
    simp only [List.nil_append]
    rw [show DD.research_loop (j :: jobs₂) = c :: DD.research_loop jobs₂ from
      by simp [DD.research_loop, hc]]
    exact List.mem_cons_self c _
  | cons k rest ih =>
    have hk := h1 k (List.mem_cons_self k rest)
    have hrest : ∀ x ∈ rest, jobFails x = false :=
      fun x hx => h1 x (List.mem_cons_of_mem k hx)
    cases hke : k.existing with
    | some ck =>
      rw [show DD.research_loop ((k :: rest) ++ j :: jobs₂) =
          ck :: DD.research_loop (rest ++ j :: jobs₂) from
        by simp [DD.research_loop, hke]]
      exact List.mem_cons_of_mem _ (ih hrest)
    | none =>
      cases hkc : k.crew with
      | ok r =>
        rw [show DD.research_loop ((k :: rest) ++ j :: jobs₂) =
            r :: DD.research_loop (rest ++ j :: jobs₂) from
          by simp [DD.research_loop, hke, hkc]]
        exact List.mem_cons_of_mem _ (ih hrest)
      | error e => simp [jobFails, hke, hkc] at hk

/-- C8 counterexample: in the DD_example flow, when the first section's crew
raises and the second section already has its output file, the step returns
with no content at all — the existing file's content `"done"` is not read into
the result, contradicting the claim that every section with an existing file
has its content read into the result. -/
theorem dd_existing_section_content_dropped_after_failure :
    DD.research_loop
        [{ existing := none, crew := .error (.otherException "boom") },
         { existing := some "done", crew := .ok "unused" }] = [] ∧
    "done" ∉ DD.research_loop
        [{ existing := none, crew := .error (.otherException "boom") },
         { existing := some "done", crew := .ok "unused" }] := by
  exact ⟨rfl, by decide⟩

/-- C8 (amended): a section whose per-section output file exists never has its
research crew invoked, in both the Foresight and the DD_example loops; the
Foresight loop always reads such a section's content into the result, while the
DD_example loop does so only when no earlier section's crew raised (an earlier
failure ends that loop before the completed section is reached). -/
theorem resume_skips_completed_sections :
    (∀ jobs (j : SectionJob) c, j ∈ jobs → j.existing = some c →
      c ∈ Foresight.research_loop jobs) ∧
    (∀ jobs i, i < jobs.length →
      ((jobs.getD i { existing := none, crew := .ok "" }).existing).isSome = true →
      (Foresight.research_attempts jobs).getD i true = false) ∧
    (∀ jobs i, i < jobs.length →
      ((jobs.getD i { existing := none, crew := .ok "" }).existing).isSome = true →
      (DD.research_attempts jobs).getD i true = false) ∧
    (∀ jobs₁ (j : SectionJob) jobs₂ c, (∀ k ∈ jobs₁, jobFails k = false) →
      j.existing = some c → c ∈ DD.research_loop (jobs₁ ++ j :: jobs₂)) :=
  ⟨foresight_loop_mem, foresight_skip, dd_skip, dd_loop_mem_of_no_earlier_fail⟩

/-- Witness for C8 (amended): a completed section is skipped (not attempted)
and its content is loaded, in a concrete one-section run. -/
theorem resume_skips_completed_sections_witness :
    "done" ∈ Foresight.research_loop [{ existing := some "done", crew := .ok "x" }] ∧
    (DD.research_attempts [{ existing := some "done", crew := .ok "x" }]).getD 0 true =
      false :=
  ⟨resume_skips_completed_sections.1 [{ existing := some "done", crew := .ok "x" }]
      { existing := some "done", crew := .ok "x" } "done" (List.mem_singleton.mpr rfl) rfl,
    resume_skips_completed_sections.2.2.1 [{ existing := some "done", crew := .ok "x" }]
      0 (by decide) rfl⟩

lemma dd_loop_length_eq_iff (jobs : List SectionJob) :
    (DD.research_loop jobs).length = jobs.length ↔ ∀ j ∈ jobs, jobFails j = false := by
  induction jobs with
  | nil => simp [DD.research_loop]
  | cons j rest ih =>
    cases hje : j.existing with
    | some c =>
      rw [show DD.research_loop (j :: rest) = c :: DD.research_loop rest from
        by simp [DD.research_loop, hje]]
      simp [List.forall_mem_cons, jobFails, hje, ih]
    | none =>
      cases hjc : j.crew with
      | ok r =>
        rw [show DD.research_loop (j :: rest) = r :: DD.research_loop rest from
          by simp [DD.research_loop, hje, hjc]]
        simp [List.forall_mem_cons, jobFails, hje, hjc, ih]
      | error e =>
        rw [show DD.research_loop (j :: rest) = [] from
          by simp [DD.research_loop, hje, hjc]]
        simp [List.forall_mem_cons, jobFails, hje, hjc]

/-- C9: the DD_example flow removes `saved_plan.json` exactly when the research
loop collected as many section contents as the plan has sections, which happens
precisely when no section's research failed; whenever any section fails, the
plan file is left in place for a later resumed run. -/
theorem dd_plan_file_removed_iff_all_sections_complete (jobs : List SectionJob) :
    DD.removes_plan jobs = true ↔ ∀ j ∈ jobs, jobFails j = false := by
  simp only [DD.removes_plan, beq_iff_eq]
  exact dd_loop_length_eq_iff jobs

/-- Witness for C9: a fully successful single-section run removes the plan
file; the same run with a raising crew does not. -/
theorem dd_plan_file_removed_iff_witness :
    DD.removes_plan [{ existing := none, crew := .ok "x" }] = true ∧
    ¬ DD.removes_plan [{ existing := none, crew := .error (.otherException "boom") }] =
        true :=
  ⟨(dd_plan_file_removed_iff_all_sections_complete _).mpr
      (by
        intro j hj
        rw [List.mem_singleton] at hj
        subst hj
        rfl),
    fun h =>
      by
        have := (dd_plan_file_removed_iff_all_sections_complete _).mp h
          { existing := none, crew := .error (.otherException "boom") }
          (List.mem_singleton.mpr rfl)
        exact absurd this (by decide)⟩

/-- C2 counterexample: in `ScanSourcesFlow.scan_sources`, when an item's crew
kickoff raises, the per-item handler prints and continues: the step still
returns the `"success"` route and `error_message` is left unset, contradicting
the claim that every step whose crew raises sets `error_message`. -/
theorem scan_item_error_leaves_error_message_unset :
    (ScanSources.scan_sources_step
        { error_message := none, research_plan := none, validated_plan := some "plan"
        , web_findings := [], document_findings := [], synthesized_forces := []
        , final_forces := [], markdown_report := none }
        (.ok [{ web := .error (.otherException "boom"), doc := .ok none }])
        (.ok none) (.ok none)).1.error_message = none ∧
    (ScanSources.scan_sources_step
        { error_message := none, research_plan := none, validated_plan := some "plan"
        , web_findings := [], document_findings := [], synthesized_forces := []
        , final_forces := [], markdown_report := none }
        (.ok [{ web := .error (.otherException "boom"), doc := .ok none }])
        (.ok none) (.ok none)).2 = ScanSources.ScanRoute.success := by
  exact ⟨rfl, rfl⟩

/-- C2 (amended): every `ScanSourcesFlow` step catches its crew's exceptions
(each step is a total function of the wrapped effects' outcomes, so nothing
propagates). `prepare_research_plan`, `review_research_plan`,
`synthesize_findings` and `generate_outputs` set `error_message` and return the
`"error"` route; `review_findings` sets `error_message`, falls back to the
synthesized forces and still returns `"packaging"`; `generate_outputs` returns
`"complete"` whatever the report file write does; but `scan_sources`' per-item,
synthesis and review handlers only print and continue — the step returns
`"success"` with `error_message` untouched. -/
theorem scan_flow_step_error_handling :
    (∀ (s : ScanSources.ScanState) (e : PyExc),
      ScanSources.prepare_research_plan s (.error e) =
        ({ s with error_message := some ("Error preparing research plan: " ++ e.msg) },
          ScanSources.ScanRoute.error)) ∧
    (∀ (s : ScanSources.ScanState) (e : PyExc),
      ScanSources.review_research_plan s (.error e) =
        ({ s with error_message := some ("Error reviewing research plan: " ++ e.msg) },
          ScanSources.ScanRoute.error)) ∧
    (∀ (s : ScanSources.ScanState) (e : PyExc),
      ScanSources.synthesize_findings s (.error e) =
        ({ s with error_message := some ("Error synthesizing findings: " ++ e.msg) },
          ScanSources.ScanRoute.error)) ∧
    (∀ (s : ScanSources.ScanState) (e : PyExc),
      ScanSources.review_findings s (.error e) =
        ({ s with error_message := some ("Error reviewing findings: " ++ e.msg)
                , final_forces := s.synthesized_forces },
          ScanSources.ScanRoute.packaging)) ∧
    (∀ (s : ScanSources.ScanState) (e : PyExc) (fw : Except PyExc Unit),
      ScanSources.generate_outputs s (.error e) fw =
        ({ s with error_message := some ("Error generating outputs: " ++ e.msg) },
          ScanSources.ScanRoute.error)) ∧
    (∀ (s : ScanSources.ScanState) (report : String) (fw : Except PyExc Unit),
      (ScanSources.generate_outputs s (.ok report) fw).2 =
        ScanSources.ScanRoute.complete) ∧
    (∀ (s : ScanSources.ScanState) (v : String) (items : List ScanSources.ScanItemJob)
        (synthesis review : Except PyExc (Option (List String))),
      s.validated_plan = some v → items ≠ [] →
      (ScanSources.scan_sources_step s (.ok items) synthesis review).2 =
        ScanSources.ScanRoute.success ∧
      (ScanSources.scan_sources_step s (.ok items) synthesis review).1.error_message =
        s.error_message) := by
  refine ⟨fun s e => rfl, fun s e => rfl, fun s e => rfl, fun s e => rfl,
    fun s e fw => rfl, fun s report fw => rfl, ?_⟩
  intro s v items synthesis review hv hne
  obtain ⟨em, rp, vp, wf, df, sf, ff, mr⟩ := s
  cases vp with
  | none => exact absurd hv (by simp)
  | some w =>
    cases items with
    | nil => exact absurd rfl hne
    | cons it rest =>
      constructor
      · rfl
      · rcases synthesis with e | sopt
        · rfl
        · rcases review with e2 | ropt
          · rcases sopt with _ | f <;> rfl
          · rcases sopt with _ | f <;> rcases ropt with _ | g <;> rfl

/-- Witness for C2 (amended): the `scan_sources` clause at a concrete state
with a failing item. -/
theorem scan_flow_step_error_handling_witness :
    (ScanSources.scan_sources_step
        { error_message := none, research_plan := none, validated_plan := some "plan"
        , web_findings := [], document_findings := [], synthesized_forces := []
        , final_forces := [], markdown_report := none }
        (.ok [{ web := .error (.otherException "kickoff failed"), doc := .ok none }])
        (.error (.otherException "synthesis failed"))
        (.ok none)).2 = ScanSources.ScanRoute.success :=
  (scan_flow_step_error_handling.2.2.2.2.2.2
      { error_message := none, research_plan := none, validated_plan := some "plan"
      , web_findings := [], document_findings := [], synthesized_forces := []
      , final_forces := [], markdown_report := none }
      "plan"
      [{ web := .error (.otherException "kickoff failed"), doc := .ok none }]
      (.error (.otherException "synthesis failed")) (.ok none)
      rfl (List.cons_ne_nil _ _)).1
